import Mathlib

/-!
Verification of the martin tile-server core (`martin-mbtiles` and the
postgres configurator) against its natural-language specification.

The Rust sources are shallowly embedded: SQLite tables become lists of
rows whose nullable columns are `Option` values, machine integers become
`Nat`/`Int` with explicit width checks where overflow matters, and
fallible operations return `Except`/`Option`.  Definitions are translated
from the source files; the few definitions whose Rust code is not part of
the sources (the `martin-tile-utils` crate and the `mbtiles_queries`
module) are modelled from the specification and say so in their doc
comments.
-/

namespace Martin

/-! ## Checked u32 arithmetic

`Mbtiles::get_tile` computes `(1 << z) - 1 - y` on `u32` values.  We model
the evaluation with explicit checks: `none` models the arithmetic fault
(shift overflow when `z ≥ 32`, subtraction underflow). -/

/-- Left shift `1 << z` on u32: overflows (faults) when `z ≥ 32`. -/
def u32ShlOne (z : Nat) : Option Nat :=
  if z < 32 then some ((1 <<< z) % 2 ^ 32) else none

/-- Subtraction `a - b` on u32: underflows (faults) when `b > a`. -/
def u32Sub (a b : Nat) : Option Nat :=
  if b ≤ a then some (a - b) else none

/-- The XYZ→TMS row conversion `(1 << z) - 1 - y` exactly as evaluated by
`Mbtiles::get_tile` (mbtiles.rs:268, lib.rs:244) in u32 arithmetic;
`none` models the arithmetic fault. -/
def xyzToTms (z y : Nat) : Option Nat :=
  (u32ShlOne z).bind fun p => (u32Sub p 1).bind fun q => u32Sub q y

/-! ## Tile rows and `get_tile`

A row of the `tiles` table (or of the `tiles` view of a deduplicated
archive).  All SQLite columns are nullable `i64` / blob, hence `Option`. -/

/-- One row of the `tiles` table: nullable integer coordinates and a
nullable blob payload (a blob is a byte list). -/
structure TileRow where
  zoom_level : Option Int
  tile_column : Option Int
  tile_row : Option Int
  tile_data : Option (List Nat)
deriving DecidableEq, Repr

/-- SQL row predicate `zoom_level = ? AND tile_column = ? AND tile_row = ?`;
NULL compares false. -/
def tileRowMatches (r : TileRow) (z x yt : Nat) : Bool :=
  r.zoom_level == some (z : Int) && r.tile_column == some (x : Int)
    && r.tile_row == some (yt : Int)

/-- Semantics of `SELECT tile_data FROM tiles WHERE zoom_level = ? AND
tile_column = ? AND tile_row = ?` fetched with `fetch_optional`: the first
matching row, if any. -/
def tileQueryRow (tiles : List TileRow) (z x yt : Nat) : Option TileRow :=
  tiles.find? fun r => tileRowMatches r z x yt

/-- Embedding of `Mbtiles::get_tile` (mbtiles.rs:257-277, lib.rs:242-253):
convert the requested XYZ `y` to TMS, run the SELECT, and return the first
row's `tile_data` (or no tile).  The outer `Option` is `none` exactly when
the u32 conversion faults. -/
def get_tile (tiles : List TileRow) (z x y : Nat) : Option (Option (List Nat)) :=
  match xyzToTms z y with
  | none => none
  | some yt =>
    some (match tileQueryRow tiles z x yt with
          | some row => row.tile_data
          | none => none)

/-! ## Tile-info detection (spec-modelled)

The `martin-tile-utils` crate is not among the sources; its pure
functions are modelled from §4.1 of the specification. -/

/-- Tile payload format (spec §3). -/
inductive Format where
  | Png
  | Jpeg
  | Gif
  | Webp
  | Mvt
deriving DecidableEq, Repr

/-- Transport encoding (spec §3). -/
inductive Encoding where
  | Identity
  | Gzip
  | Zstd
deriving DecidableEq, Repr

/-- A `(format, encoding)` pair (spec §3). -/
structure TileInfo where
  format : Format
  encoding : Encoding
deriving DecidableEq, Repr

/-- Modelled from the spec: `TileInfo::detect` of the missing
`martin-tile-utils` crate, per the §4.1 magic-byte table; first match
wins, the empty blob is undetectable. -/
def TileInfo.detect (b : List Nat) : Option TileInfo :=
  if [0x89, 0x50, 0x4E, 0x47].isPrefixOf b then some ⟨.Png, .Identity⟩
  else if [0xFF, 0xD8, 0xFF].isPrefixOf b then some ⟨.Jpeg, .Identity⟩
  else if [0x47, 0x49, 0x46, 0x38].isPrefixOf b then some ⟨.Gif, .Identity⟩
  else if [0x52, 0x49, 0x46, 0x46].isPrefixOf b
      && [0x57, 0x45, 0x42, 0x50].isPrefixOf (b.drop 8) then
    some ⟨.Webp, .Identity⟩
  else if [0x1F, 0x8B].isPrefixOf b then some ⟨.Mvt, .Gzip⟩
  else if [0x28, 0xB5, 0x2F, 0xFD].isPrefixOf b then some ⟨.Mvt, .Zstd⟩
  else if b.isEmpty then none
  else some ⟨.Mvt, .Identity⟩

/-- Modelled from the spec: `Format::parse` of the missing
`martin-tile-utils` crate; recognises the format names of spec §3. -/
def Format.parse (s : String) : Option Format :=
  match s with
  | "png" => some .Png
  | "jpeg" => some .Jpeg
  | "gif" => some .Gif
  | "webp" => some .Webp
  | "mvt" => some .Mvt
  | _ => none

/-- Modelled from the spec: `Format::is_detectable` of the missing
`martin-tile-utils` crate; a format is detectable iff its magic is
unambiguous, and bare mvt is the fallback (spec §4.1). -/
def Format.isDetectable : Format → Bool
  | .Mvt => false
  | _ => true

/-- Modelled from the spec: the `From<Format> for TileInfo` conversion
used by `fmt.into()`; raster formats carry identity encoding (spec §3
invariant) and bare mvt is the identity fallback. -/
def TileInfo.fromFormat (f : Format) : TileInfo :=
  ⟨f, .Identity⟩

/-! ## Error and archive-shape types (errors.rs uses in the sources) -/

/-- The error variants of `MbtError` used by the embedded code paths
(their constructors appear in mbtiles.rs and tile_copier.rs). -/
inductive MbtError where
  | SqlError
  | UnsupportedCharsInFilepath (path : String)
  | InconsistentMetadata (old new : TileInfo)
  | NoTilesFound
  | InvalidDataFormat (path : String)
  | NonEmptyTargetFile (path : String)
deriving DecidableEq, Repr

/-- Physical shape of an archive (mbtiles.rs:29-33). -/
inductive MbtType where
  | TileTables
  | DeDuplicated
deriving DecidableEq, Repr

/-- Whether an `Except` value is a success. -/
def isOkE {ε α : Type} : Except ε α → Bool
  | .ok _ => true
  | .error _ => false

/-! ## Shape detection -/

/-- One row of `sqlite_schema` as far as shape detection needs it: an
object name, whether it is a view, and its column names. -/
structure SchemaObject where
  name : String
  isView : Bool
  columns : List String
deriving DecidableEq, Repr

/-- Does the schema contain a table (not a view) of this name holding all
the required columns? -/
def tableWithColumns (s : List SchemaObject) (nm : String) (cols : List String) : Bool :=
  s.any fun t => t.name == nm && !t.isView && cols.all fun c => t.columns.contains c

/-- Does the schema contain a table or view of this name holding all the
required columns? -/
def tableOrViewWithColumns (s : List SchemaObject) (nm : String) (cols : List String) : Bool :=
  s.any fun t => t.name == nm && cols.all fun c => t.columns.contains c

/-- Modelled from the spec: `is_deduplicated_type` of the missing
`mbtiles_queries` module — tables `map(zoom_level, tile_column, tile_row,
tile_id)` and `images(tile_id, tile_data)` exist with those columns
(spec §4.2). -/
def is_deduplicated_type (s : List SchemaObject) : Bool :=
  tableWithColumns s "map" ["zoom_level", "tile_column", "tile_row", "tile_id"]
    && tableWithColumns s "images" ["tile_id", "tile_data"]

/-- Modelled from the spec: `is_tile_tables_type` of the missing
`mbtiles_queries` module — a table or view `tiles(zoom_level, tile_column,
tile_row, tile_data)` exists (spec §4.2). -/
def is_tile_tables_type (s : List SchemaObject) : Bool :=
  tableOrViewWithColumns s "tiles" ["zoom_level", "tile_column", "tile_row", "tile_data"]

/-- Embedding of `Mbtiles::detect_type` (mbtiles.rs:279-290): deduplicated
first, then tile tables, else `InvalidDataFormat` with the file path. -/
def detect_type (filepath : String) (s : List SchemaObject) : Except MbtError MbtType :=
  if is_deduplicated_type s then .ok .DeDuplicated
  else if is_tile_tables_type s then .ok .TileTables
  else .error (.InvalidDataFormat filepath)

/-! ## Metadata parsing

The `metadata` table is a list of nullable `(name, value)` rows.  The
external parsers used on individual values (the `tilejson` crate's
`Bounds::from_str` and `Center::from_str`, `u8::parse`, and
`serde_json::from_str`, each composed with `to_val` which turns a parse
failure into `None`) are collaborator code outside the sources, so
`parse_metadata` is parameterised over them. -/

/-- A JSON value as far as the embedded code inspects it: the `json`
metadata sidecar is only ever pattern-matched as an object whose
`vector_layers` key is removed. -/
inductive JVal where
  | str (s : String)
  | obj (fields : List (String × JVal))
  | lit (raw : String)

/-- Map lookup on an association list (the first binding wins, as in a
key-unique `serde_json` map). -/
def alistGet {α : Type} : List (String × α) → String → Option α
  | [], _ => none
  | p :: l, k => if p.1 = k then some p.2 else alistGet l k

/-- Map removal on an association list (`Map::remove`). -/
def alistErase {α : Type} (l : List (String × α)) (k : String) : List (String × α) :=
  l.filter fun p => !(p.1 == k)

/-- Map insertion on an association list (`Map::insert`): replace the
existing binding, else append. -/
def alistInsert {α : Type} : List (String × α) → String → α → List (String × α)
  | [], k, v => [(k, v)]
  | p :: l, k, v => if p.1 = k then (k, v) :: l else p :: alistInsert l k v

/-- The external value parsers `parse_metadata` dispatches to, one per
parsed field type; each already folds `to_val` (failure becomes `none`). -/
structure MetaParsers (B C VL : Type) where
  bounds : String → Option B
  center : String → Option C
  zoom : String → Option Nat
  jsonOf : String → Option JVal
  vecLayers : JVal → Option VL

/-- The fields of the `tilejson` crate's `TileJSON` document touched by
the embedded code, initialised as by `tilejson! { tiles: vec![] }`. -/
structure TileJSON (B C VL : Type) where
  name : Option String := none
  description : Option String := none
  version : Option String := none
  attribution : Option String := none
  legend : Option String := none
  template : Option String := none
  bounds : Option B := none
  center : Option C := none
  minzoom : Option Nat := none
  maxzoom : Option Nat := none
  tiles : List String := []
  vector_layers : Option VL := none
  other : List (String × String) := []

/-- The triple accumulated by `Mbtiles::parse_metadata`
(mbtiles.rs:105-160, lib.rs:92-144). -/
structure ParsedMeta (B C VL : Type) where
  tj : TileJSON B C VL
  layer_type : Option String
  json : Option JVal

/-- The initial accumulator of `parse_metadata`. -/
def initMeta {B C VL : Type} : ParsedMeta B C VL :=
  { tj := {}, layer_type := none, json := none }

/-- One iteration of the `parse_metadata` row loop: dispatch on the row
name (mbtiles.rs:121-142).  The `format`/`generator` arm and the
catch-all arm both insert into `other` (the catch-all also warns). -/
def metaStep {B C VL : Type} (P : MetaParsers B C VL) (s : ParsedMeta B C VL)
    (n v : String) : ParsedMeta B C VL :=
  if n = "name" then { s with tj := { s.tj with name := some v } }
  else if n = "version" then { s with tj := { s.tj with version := some v } }
  else if n = "bounds" then { s with tj := { s.tj with bounds := P.bounds v } }
  else if n = "center" then { s with tj := { s.tj with center := P.center v } }
  else if n = "minzoom" then { s with tj := { s.tj with minzoom := P.zoom v } }
  else if n = "maxzoom" then { s with tj := { s.tj with maxzoom := P.zoom v } }
  else if n = "description" then { s with tj := { s.tj with description := some v } }
  else if n = "attribution" then { s with tj := { s.tj with attribution := some v } }
  else if n = "type" then { s with layer_type := some v }
  else if n = "legend" then { s with tj := { s.tj with legend := some v } }
  else if n = "template" then { s with tj := { s.tj with template := some v } }
  else if n = "json" then { s with json := P.jsonOf v }
  else { s with tj := { s.tj with other := alistInsert s.tj.other n v } }

/-- One row of the fetch loop: rows whose name or value is NULL are
skipped by the `if let` (mbtiles.rs:120). -/
def metaFold {B C VL : Type} (P : MetaParsers B C VL) (s : ParsedMeta B C VL)
    (row : Option String × Option String) : ParsedMeta B C VL :=
  match row with
  | (some n, some v) => metaStep P s n v
  | _ => s

/-- The post-loop `vector_layers` extraction (mbtiles.rs:146-157): when
the accumulated json is an object, remove its `vector_layers` key and, if
it parses, install it into the TileJSON. -/
def postJson {B C VL : Type} (P : MetaParsers B C VL) (s : ParsedMeta B C VL) :
    ParsedMeta B C VL :=
  match s.json with
  | some (.obj fields) =>
    match alistGet fields "vector_layers" with
    | some value =>
      let s' := { s with json := some (.obj (alistErase fields "vector_layers")) }
      match P.vecLayers value with
      | some v => { s' with tj := { s'.tj with vector_layers := some v } }
      | none => s'
    | none => s
  | _ => s

/-- Embedding of `Mbtiles::parse_metadata` (mbtiles.rs:105-160,
lib.rs:92-144): the SQL filter `WHERE value IS NOT ''` drops rows whose
value is the empty string, then the row loop folds left to right, then
`vector_layers` is extracted from the json sidecar. -/
def parse_metadata {B C VL : Type} (P : MetaParsers B C VL)
    (rows : List (Option String × Option String)) : ParsedMeta B C VL :=
  postJson P (List.foldl (metaFold P) initMeta (rows.filter fun r => !(r.2 == some "")))

/-- The effect of `postJson` on the json sidecar alone, as a function of
the accumulated json value. -/
def jsonPost : Option JVal → Option JVal
  | some (.obj fields) =>
    match alistGet fields "vector_layers" with
    | some _ => some (.obj (alistErase fields "vector_layers"))
    | none => some (.obj fields)
  | j => j

/-- The value of one metadata-addressable component of the parse result;
components have different types, so the readout is a tagged value. -/
inductive MetaVal (B C : Type) where
  | str (v : Option String)
  | bnd (v : Option B)
  | cnt (v : Option C)
  | nat (v : Option Nat)
  | jsn (v : Option JVal)

/-- Read the component that metadata name `n` assigns: the matching
TileJSON field for recognised names, the `other` entry for the rest. -/
def readName {B C VL : Type} (s : ParsedMeta B C VL) (n : String) : MetaVal B C :=
  if n = "name" then .str s.tj.name
  else if n = "version" then .str s.tj.version
  else if n = "bounds" then .bnd s.tj.bounds
  else if n = "center" then .cnt s.tj.center
  else if n = "minzoom" then .nat s.tj.minzoom
  else if n = "maxzoom" then .nat s.tj.maxzoom
  else if n = "description" then .str s.tj.description
  else if n = "attribution" then .str s.tj.attribution
  else if n = "type" then .str s.layer_type
  else if n = "legend" then .str s.tj.legend
  else if n = "template" then .str s.tj.template
  else if n = "json" then .jsn s.json
  else .str (alistGet s.tj.other n)

/-- The component value a row `(n, v)` assigns, independent of any
earlier rows. -/
def lastVal {B C VL : Type} (P : MetaParsers B C VL) (n v : String) : MetaVal B C :=
  if n = "name" then .str (some v)
  else if n = "version" then .str (some v)
  else if n = "bounds" then .bnd (P.bounds v)
  else if n = "center" then .cnt (P.center v)
  else if n = "minzoom" then .nat (P.zoom v)
  else if n = "maxzoom" then .nat (P.zoom v)
  else if n = "description" then .str (some v)
  else if n = "attribution" then .str (some v)
  else if n = "type" then .str (some v)
  else if n = "legend" then .str (some v)
  else if n = "template" then .str (some v)
  else if n = "json" then .jsn (jsonPost (P.jsonOf v))
  else .str (some v)

/-! ## Content-type detection and `get_metadata` -/

/-- Embedding of `Mbtiles::parse_tile` (mbtiles.rs:235-255): detect only
when all four columns are non-NULL. -/
def parse_tile (z x y : Option Int) (tile : Option (List Nat)) : Option TileInfo :=
  match z, x, y, tile with
  | some _, some _, some _, some t => TileInfo.detect t
  | _, _, _, _ => none

/-- The inclusive u8 range `a..=b` iterated by the zoom loop. -/
def zoomRange (a b : Nat) : List Nat :=
  List.range' a (b + 1 - a)

/-- The per-zoom consistency loop of `detect_format` (mbtiles.rs:178-197):
skip the sampled zoom, look up one tile per zoom, and combine detections;
a disagreement aborts with `InconsistentMetadata`. -/
def scanZooms (tiles : List TileRow) (tested : Int) :
    Option TileInfo → List Nat → Except MbtError (Option TileInfo)
  | ti, [] => .ok ti
  | ti, z :: zs =>
    if (z : Int) = tested then scanZooms tiles tested ti zs
    else
      match tiles.find? fun r => r.zoom_level == some (z : Int) with
      | none => scanZooms tiles tested ti zs
      | some r =>
        match ti, parse_tile (some (z : Int)) r.tile_column r.tile_row r.tile_data with
        | old, none => scanZooms tiles tested old zs
        | none, some new => scanZooms tiles tested (some new) zs
        | some old, some new =>
          if old = new then scanZooms tiles tested (some old) zs
          else .error (.InconsistentMetadata old new)

/-- Continuation of `Mbtiles::detect_format` (mbtiles.rs:162-233,
lib.rs:146-218) after the initial sample: scan the zoom range
`[minzoom.unwrap_or(0) ..= maxzoom.unwrap_or(18)]`, then reconcile with
the metadata `format` entry; no detection at all is `NoTilesFound`. -/
def detectFormatCont {B C VL : Type} (tj : TileJSON B C VL) (tiles : List TileRow)
    (ti0 : Option TileInfo) (tested : Int) : Except MbtError TileInfo :=
  match scanZooms tiles tested ti0 (zoomRange (tj.minzoom.getD 0) (tj.maxzoom.getD 18)) with
  | .error e => .error e
  | .ok ti =>
    match (match alistGet tj.other "format" with
           | some fmt =>
             match ti, Format.parse fmt with
             | t, none => t
             | none, some f => some (TileInfo.fromFormat f)
             | some t, some _ => some t
           | none => ti) with
    | some info => .ok info
    | none => .error .NoTilesFound

/-- Entry of `detect_format`: the initial random sample picks any row
with `zoom_level >= 0`; it seeds the detected info and the tested zoom
(`unwrap_or(-1)`), then the scan and reconciliation continue in
`detectFormatCont`. -/
def detect_format {B C VL : Type} (tj : TileJSON B C VL) (tiles : List TileRow) :
    Except MbtError TileInfo :=
  match tiles.find? fun r =>
      match r.zoom_level with
      | some z => decide (0 ≤ z)
      | none => false with
  | some r =>
    detectFormatCont tj tiles (parse_tile r.zoom_level r.tile_column r.tile_row r.tile_data)
      (r.zoom_level.getD (-1))
  | none => detectFormatCont tj tiles none (-1)

/-- The record produced by `get_metadata` (mbtiles.rs:20-27). -/
structure Metadata (B C VL : Type) where
  id : String
  tile_info : TileInfo
  layer_type : Option String
  tilejson : TileJSON B C VL
  json : Option JVal

/-- Embedding of `Mbtiles::get_metadata` (mbtiles.rs:90-103): parse the
metadata table, then detect the content type against it. -/
def get_metadata {B C VL : Type} (P : MetaParsers B C VL) (filename : String)
    (metadataRows : List (Option String × Option String)) (tiles : List TileRow) :
    Except MbtError (Metadata B C VL) :=
  match detect_format (parse_metadata P metadataRows).tj tiles with
  | .error e => .error e
  | .ok info =>
    .ok { id := filename, tile_info := info,
          layer_type := (parse_metadata P metadataRows).layer_type,
          tilejson := (parse_metadata P metadataRows).tj,
          json := (parse_metadata P metadataRows).json }

/-- The detected tile info of a `get_metadata` result, if it succeeded. -/
def metaTileInfo {B C VL : Type} (e : Except MbtError (Metadata B C VL)) : Option TileInfo :=
  match e with
  | .ok m => some m.tile_info
  | .error _ => none

/-- A concrete parser instance used to evaluate the embedded code on
closed inputs. -/
def defaultParsers : MetaParsers String String String :=
  { bounds := some, center := some, zoom := String.toNat?,
    jsonOf := fun _ => none, vecLayers := fun _ => none }

/-! ## Tile copier -/

/-- Embedding of `TileCopierOptions` (tile_copier.rs:11-18); the `zooms`
set is carried as a list, membership being all that matters. -/
structure TileCopierOptions where
  zooms : List Nat
  min_zoom : Option Nat
  max_zoom : Option Nat
  verbose : Bool
deriving DecidableEq, Repr

/-- `TileCopierOptions::new` (tile_copier.rs:28-35). -/
def TileCopierOptions.new : TileCopierOptions :=
  { zooms := [], min_zoom := none, max_zoom := none, verbose := false }

/-- The WHERE clause appended by `run_query_with_options`
(tile_copier.rs:141-175), as an abstract syntax of the five shapes it can
take. -/
inductive ZoomClause where
  | inSet (zs : List Nat)
  | between (mn mx : Nat)
  | atLeast (mn : Nat)
  | atMost (mx : Nat)
  | noFilter
deriving DecidableEq, Repr

/-- The clause construction of `run_query_with_options`
(tile_copier.rs:148-170): `zooms` first, then `min`/`max` combinations,
else no filter. -/
def run_query_with_options (o : TileCopierOptions) : ZoomClause :=
  if !o.zooms.isEmpty then .inSet o.zooms
  else
    match o.min_zoom with
    | some mn =>
      match o.max_zoom with
      | some mx => .between mn mx
      | none => .atLeast mn
    | none =>
      match o.max_zoom with
      | some mx => .atMost mx
      | none => .noFilter

/-- SQLite evaluation of the clause on a row's nullable `zoom_level`:
every comparison and `IN` test is false on NULL, and the absent clause
keeps every row. -/
def ZoomClause.eval : ZoomClause → Option Int → Bool
  | .noFilter, _ => true
  | .inSet zs, some z => zs.any fun w => (w : Int) == z
  | .between mn mx, some z => decide ((mn : Int) ≤ z) && decide (z ≤ (mx : Int))
  | .atLeast mn, some z => decide ((mn : Int) ≤ z)
  | .atMost mx, some z => decide (z ≤ (mx : Int))
  | _, none => false

/-- One row of the `map` table of a deduplicated archive. -/
structure MapRow where
  zoom_level : Option Int
  tile_column : Option Int
  tile_row : Option Int
  tile_id : Option String
deriving DecidableEq, Repr

/-- One row of the `images` table of a deduplicated archive. -/
structure ImagesRow where
  tile_id : Option String
  tile_data : Option (List Nat)
deriving DecidableEq, Repr

/-- The content of a source archive as the copier reads it: its
`sqlite_schema` objects (for shape detection), the schema SQL rows for
the four copied tables, and the table contents. -/
structure MbtDatabase where
  schema : List SchemaObject
  schemaSql : List String
  metadata : List (Option String × Option String)
  tiles : List TileRow
  map : List MapRow
  images : List ImagesRow
deriving DecidableEq, Repr

/-- The content written into the destination archive. -/
structure DstArchive where
  schemaSql : List String
  metadata : List (Option String × Option String)
  tiles : List TileRow
  map : List MapRow
  images : List ImagesRow
deriving DecidableEq, Repr

/-- SQL equality on two nullable `tile_id` columns: false when either is
NULL. -/
def sqlEqId : Option String → Option String → Bool
  | some a, some b => a == b
  | _, _ => false

/-- Embedding of `TileCopier::copy_tile_tables` (tile_copier.rs:120-123):
`INSERT INTO tiles SELECT * FROM sourceDb.tiles` with the zoom clause
appended by `run_query_with_options`. -/
def copy_tile_tables (o : TileCopierOptions) (src : MbtDatabase) (base : DstArchive) :
    DstArchive :=
  { base with tiles := src.tiles.filter fun r => (run_query_with_options o).eval r.zoom_level }

/-- Embedding of `TileCopier::copy_deduplicated` (tile_copier.rs:125-139):
`INSERT INTO map SELECT * FROM sourceDb.map` runs with NO zoom clause,
then the `images` insert joins `sourceDb.images` with `sourceDb.map` on
`tile_id` and gets the zoom clause appended (one inserted row per
matching join pair, `zoom_level` resolving to the map column). -/
def copy_deduplicated (o : TileCopierOptions) (src : MbtDatabase) (base : DstArchive) :
    DstArchive :=
  { base with
    map := src.map
    images := src.images.flatMap fun img =>
      (src.map.filter fun m =>
        sqlEqId img.tile_id m.tile_id && (run_query_with_options o).eval m.zoom_level).map
        fun _ => img }

/-- The destination-mutating statements `TileCopier::run` can execute, in
source order. -/
inductive CopyWrite where
  | setPageSize
  | vacuum
  | attachSource
  | execSql (sql : String)
  | insertMetadata
  | insertTiles
  | insertMap
  | insertImages
deriving DecidableEq, Repr

/-- Embedding of `TileCopier::run` (tile_copier.rs:73-118): detect the
source shape, fail with `NonEmptyTargetFile` when the destination's
`sqlite_schema` has any row, otherwise execute the source schema DDL,
copy `metadata` verbatim, and copy the tiles per shape.  `dstSchema` is
the destination's existing `sqlite_schema` rows (an absent destination
file is created empty, i.e. `[]`). -/
def TileCopier.run (o : TileCopierOptions) (src : MbtDatabase)
    (srcPath dstPath : String) (dstSchema : List String) : Except MbtError DstArchive :=
  match detect_type srcPath src.schema with
  | .error e => .error e
  | .ok storage_type =>
    if dstSchema = [] then
      let base : DstArchive :=
        { schemaSql := src.schemaSql, metadata := src.metadata,
          tiles := [], map := [], images := [] }
      match storage_type with
      | .TileTables => .ok (copy_tile_tables o src base)
      | .DeDuplicated => .ok (copy_deduplicated o src base)
    else .error (.NonEmptyTargetFile dstPath)

/-- The destination-mutating statements `TileCopier::run` executes, in
order; the failure paths (bad source shape, non-empty destination) run
none of them. -/
def runWrites (src : MbtDatabase)
    (srcPath : String) (dstSchema : List String) : List CopyWrite :=
  match detect_type srcPath src.schema with
  | .error _ => []
  | .ok storage_type =>
    if dstSchema = [] then
      [.setPageSize, .vacuum, .attachSource] ++ src.schemaSql.map .execSql
        ++ [.insertMetadata]
        ++ (match storage_type with
            | .TileTables => [.insertTiles]
            | .DeDuplicated => [.insertMap, .insertImages])
    else []

/-! ## Postgres configuration -/

/-- The schema selection carried by the auto-discovery options; `finalize`
never inspects it. -/
structure Schemas where
  names : List String
deriving DecidableEq, Repr

/-- The per-table declarative entry as far as `PgConfig::finalize` touches
it: `finalize` only reads `unrecognized` to log warnings. -/
structure PgTableInfo where
  schema : String
  table : String
  srid : Int
  geometry_column : String
  unrecognized : List (String × String)
deriving DecidableEq, Repr

/-- The per-function declarative entry as far as `PgConfig::finalize`
touches it. -/
structure PgFuncInfo where
  schema : String
  function : String
  unrecognized : List (String × String)
deriving DecidableEq, Repr

/-- The error raised by `finalize` (`PgError::NoConnectionString`). -/
inductive PgError where
  | NoConnectionString
deriving DecidableEq, Repr

/-- Embedding of `PgConfig` (pg/config.rs:20-43). -/
structure PgConfig where
  connection_string : Option String
  ca_root_file : Option String
  danger_accept_invalid_certs : Bool
  default_srid : Option Int
  pool_size : Option Nat
  auto_tables : Option Schemas
  auto_functions : Option Schemas
  tables : Option (List (String × PgTableInfo))
  functions : Option (List (String × PgFuncInfo))
  run_autodiscovery : Bool
deriving DecidableEq, Repr

/-- Embedding of `PgConfig::finalize` (pg/config.rs:63-81): report
unrecognised keys (log only), require a connection string, and set
`run_autodiscovery` iff neither `tables` nor `functions` is declared;
every other field is carried over by `..self`. -/
def PgConfig.finalize (c : PgConfig) : Except PgError PgConfig :=
  match c.connection_string with
  | none => .error .NoConnectionString
  | some cs =>
    .ok { c with
          connection_string := some cs,
          run_autodiscovery := c.tables.isNone && c.functions.isNone }

/-! ## Concrete archives and options used to evaluate the code -/

/-- Options `min_zoom=2, max_zoom=4, zooms={1,6}`. -/
def c4Opts : TileCopierOptions :=
  { zooms := [1, 6], min_zoom := some 2, max_zoom := some 4, verbose := false }

/-- A small deduplicated source archive with map rows at zooms 0 and 3. -/
def c1Src : MbtDatabase :=
  { schema := [⟨"map", false, ["zoom_level", "tile_column", "tile_row", "tile_id"]⟩,
               ⟨"images", false, ["tile_id", "tile_data"]⟩],
    schemaSql := ["CREATE TABLE map", "CREATE TABLE images"],
    metadata := [(some "name", some "demo")],
    tiles := [],
    map := [⟨some 0, some 0, some 0, some "t0"⟩, ⟨some 3, some 1, some 1, some "t3"⟩],
    images := [⟨some "t0", some [1]⟩, ⟨some "t3", some [2]⟩] }

/-- Options `min_zoom=2, max_zoom=4`. -/
def c1Opts : TileCopierOptions :=
  { zooms := [], min_zoom := some 2, max_zoom := some 4, verbose := false }

/-- A small direct-tiles source archive. -/
def c8Src : MbtDatabase :=
  { schema := [⟨"tiles", false, ["zoom_level", "tile_column", "tile_row", "tile_data"]⟩],
    schemaSql := ["CREATE TABLE tiles"],
    metadata := [],
    tiles := [⟨some 0, some 0, some 0, some [1]⟩],
    map := [],
    images := [] }

/-- A deduplicated schema that also exposes the customary `tiles` view. -/
def c3Schema : List SchemaObject :=
  [⟨"map", false, ["zoom_level", "tile_column", "tile_row", "tile_id"]⟩,
   ⟨"images", false, ["tile_id", "tile_data"]⟩,
   ⟨"tiles", true, ["zoom_level", "tile_column", "tile_row", "tile_data"]⟩]

/-- A deduplicated schema without a `tiles` view. -/
def c3DedupOnly : List SchemaObject :=
  [⟨"map", false, ["zoom_level", "tile_column", "tile_row", "tile_id"]⟩,
   ⟨"images", false, ["tile_id", "tile_data"]⟩]

/-- Metadata rows declaring a parseable `format` (for an archive with no
tiles at all). -/
def c2Rows : List (Option String × Option String) := [(some "format", some "png")]

/-- Metadata rows declaring an unparseable `format`. -/
def c2RowsBad : List (Option String × Option String) := [(some "format", some "bogus")]

/-- A concrete postgres config with a connection string and no declared
sources. -/
def c9Config : PgConfig :=
  { connection_string := some "postgresql://localhost/db", ca_root_file := none,
    danger_accept_invalid_certs := false, default_srid := some 4326, pool_size := some 20,
    auto_tables := none, auto_functions := none, tables := none, functions := none,
    run_autodiscovery := false }

/-! ## Shared helper lemmas -/

/-- In the valid domain the checked conversion evaluates to the pure
formula `2^z - 1 - y`. -/
theorem xyzToTms_eq {z y : Nat} (hz : z < 32) (hy : y < 2 ^ z) :
    xyzToTms z y = some (2 ^ z - 1 - y) := by
  have h1 : 1 ≤ 2 ^ z := Nat.one_le_two_pow
  have hpow : (1 <<< z) % 2 ^ 32 = 2 ^ z := by
    rw [Nat.shiftLeft_eq, one_mul]
    exact Nat.mod_eq_of_lt (Nat.pow_lt_pow_right one_lt_two hz)
  simp only [xyzToTms, u32ShlOne, if_pos hz, hpow, Option.some_bind, u32Sub,
    if_pos h1, if_pos (show y ≤ 2 ^ z - 1 by omega)]

/-- The conversion succeeds exactly on the valid domain. -/
theorem xyzToTms_isSome {z y : Nat} :
    (xyzToTms z y).isSome = true ↔ (z < 32 ∧ y < 2 ^ z) := by
  by_cases hz : z < 32
  · have h1 : 1 ≤ 2 ^ z := Nat.one_le_two_pow
    have hpow : (1 <<< z) % 2 ^ 32 = 2 ^ z := by
      rw [Nat.shiftLeft_eq, one_mul]
      exact Nat.mod_eq_of_lt (Nat.pow_lt_pow_right one_lt_two hz)
    simp only [xyzToTms, u32ShlOne, if_pos hz, hpow, Option.some_bind, u32Sub,
      if_pos h1]
    by_cases hy : y ≤ 2 ^ z - 1
    · rw [if_pos hy]
      simp only [Option.isSome_some, true_iff]
      exact ⟨hz, by omega⟩
    · rw [if_neg hy]
      simp only [Option.isSome_none]
      constructor
      · exact fun h => absurd h (by simp)
      · exact fun h => absurd (show y ≤ 2 ^ z - 1 by have := h.2; omega) hy
  · simp [xyzToTms, u32ShlOne, if_neg hz, hz]

/-- `get_tile` succeeds exactly when the conversion does. -/
theorem get_tile_isSome_eq (tiles : List TileRow) (z x y : Nat) :
    (get_tile tiles z x y).isSome = (xyzToTms z y).isSome := by
  unfold get_tile
  cases xyzToTms z y <;> rfl

/-! ## Claim theorems -/

/-- C5: for all `(z, y)` with `0 ≤ z ≤ 22` and `0 ≤ y < 2^z`, applying the
TMS↔XYZ conversion `y ↦ (1 << z) - 1 - y` twice is the identity, and
`get_tile` applies exactly this conversion to the requested `y` before
querying the tile storage. -/
theorem tms_conversion_involutive (z y : Nat) (hz : z ≤ 22) (hy : y < 2 ^ z) :
    (xyzToTms z y = some (2 ^ z - 1 - y) ∧ xyzToTms z (2 ^ z - 1 - y) = some y) ∧
    ∀ tiles x, get_tile tiles z x y =
      some (match tileQueryRow tiles z x (2 ^ z - 1 - y) with
            | some row => row.tile_data
            | none => none) := by
  have hz32 : z < 32 := by omega
  have h1 : 1 ≤ 2 ^ z := Nat.one_le_two_pow
  have e1 := xyzToTms_eq hz32 hy
  have hy' : 2 ^ z - 1 - y < 2 ^ z := by omega
  have e2 := xyzToTms_eq hz32 hy'
  refine ⟨⟨e1, ?_⟩, ?_⟩
  · rw [e2]
    congr 1
    omega
  · intro tiles x
    unfold get_tile
    rw [e1]

/-- Witness for C5 at `z = 2, y = 1`: the conversion round-trips. -/
theorem tms_conversion_involutive_witness :
    xyzToTms 2 1 = some 2 ∧ xyzToTms 2 2 = some 1 :=
  ⟨(tms_conversion_involutive 2 1 (by decide) (by decide)).1.1,
   (tms_conversion_involutive 2 1 (by decide) (by decide)).1.2⟩

/-- C6: on a coordinate-unique `tiles` table, `get_tile` returns the
stored `tile_data` of the row at `(z, x, y_tms)` when one exists (hence
the blob when it is non-null), returns no tile otherwise, and returns an
empty vector only when the archive stores an explicit empty blob there. -/
theorem get_tile_returns_stored_blob (tiles : List TileRow) (z x y : Nat)
    (hz : z < 32) (hy : y < 2 ^ z)
    (huniq : ∀ r₁ ∈ tiles, ∀ r₂ ∈ tiles,
      tileRowMatches r₁ z x (2 ^ z - 1 - y) = true →
      tileRowMatches r₂ z x (2 ^ z - 1 - y) = true → r₁ = r₂) :
    (∀ r ∈ tiles, tileRowMatches r z x (2 ^ z - 1 - y) = true →
      get_tile tiles z x y = some r.tile_data) ∧
    ((∀ r ∈ tiles, tileRowMatches r z x (2 ^ z - 1 - y) = true → r.tile_data = none) →
      get_tile tiles z x y = some none) ∧
    (∀ d, get_tile tiles z x y = some (some d) →
      ∃ r ∈ tiles, tileRowMatches r z x (2 ^ z - 1 - y) = true ∧ r.tile_data = some d) := by
  have hget : get_tile tiles z x y =
      some (match tileQueryRow tiles z x (2 ^ z - 1 - y) with
            | some row => row.tile_data
            | none => none) := by
    unfold get_tile
    rw [xyzToTms_eq hz hy]
  refine ⟨?_, ?_, ?_⟩
  · intro r hr hm
    rw [hget]
    cases hfind : tileQueryRow tiles z x (2 ^ z - 1 - y) with
    | none =>
      exact absurd hm (List.find?_eq_none.mp hfind r hr)
    | some r₀ =>
      have hp := List.find?_some hfind
      have hmem := List.mem_of_find?_eq_some hfind
      have heq : r₀ = r := huniq r₀ hmem r hr hp hm
      subst heq
      rfl
  · intro hnone
    rw [hget]
    cases hfind : tileQueryRow tiles z x (2 ^ z - 1 - y) with
    | none => rfl
    | some r₀ =>
      have hp := List.find?_some hfind
      have hmem := List.mem_of_find?_eq_some hfind
      simp [hnone r₀ hmem hp]
  · intro d hd
    rw [hget] at hd
    cases hfind : tileQueryRow tiles z x (2 ^ z - 1 - y) with
    | none =>
      rw [hfind] at hd
      simp at hd
    | some r₀ =>
      rw [hfind] at hd
      have hp := List.find?_some hfind
      have hmem := List.mem_of_find?_eq_some hfind
      exact ⟨r₀, hmem, hp, by simpa using hd⟩

/-- Witness for C6 at a one-row table holding a blob at `(1, 0, 1)`
(TMS row 0). -/
theorem get_tile_returns_stored_blob_witness :
    get_tile [⟨some 1, some 0, some 0, some [7]⟩] 1 0 1 = some (some [7]) := by
  have h := (get_tile_returns_stored_blob [⟨some 1, some 0, some 0, some [7]⟩] 1 0 1
    (by decide) (by decide) (by decide)).1
  exact h ⟨some 1, some 0, some 0, some [7]⟩ (by decide) (by decide)

/-- C10: the XYZ→TMS u32 computation inside `get_tile` is free of
overflow/underflow precisely when `z < 32` and `y < 2^z`; for any other
input accepted by the `u8`/`u32` signature the arithmetic faults, so
totality of `get_tile` requires that precondition. -/
theorem xyz_to_tms_overflow_free_iff (z y : Nat) (_hz : z ≤ 255) (_hy : y < 2 ^ 32) :
    ((xyzToTms z y).isSome = true ↔ (z < 32 ∧ y < 2 ^ z)) ∧
    ∀ tiles x, ((get_tile tiles z x y).isSome = true ↔ (z < 32 ∧ y < 2 ^ z)) := by
  refine ⟨xyzToTms_isSome, ?_⟩
  intro tiles x
  rw [get_tile_isSome_eq]
  exact xyzToTms_isSome

/-- Witness for C10: in-range and out-of-range concrete coordinates. -/
theorem xyz_to_tms_overflow_free_iff_witness :
    (2 ≤ 255 ∧ 1 < 2 ^ 32 ∧ ((xyzToTms 2 1).isSome = true ↔ (2 < 32 ∧ 1 < 2 ^ 2))) ∧
    (7 < 2 ^ 32 ∧ ((xyzToTms 2 7).isSome = true ↔ (2 < 32 ∧ 7 < 2 ^ 2))) :=
  ⟨⟨by decide, by decide, (xyz_to_tms_overflow_free_iff 2 1 (by decide) (by decide)).1⟩,
   ⟨by decide, (xyz_to_tms_overflow_free_iff 2 7 (by decide) (by decide)).1⟩⟩

/-- Propositional reading of `tableWithColumns`. -/
theorem tableWithColumns_iff (s : List SchemaObject) (nm : String) (cols : List String) :
    tableWithColumns s nm cols = true ↔
      ∃ t ∈ s, t.name = nm ∧ t.isView = false ∧ ∀ c ∈ cols, c ∈ t.columns := by
  simp [tableWithColumns, List.any_eq_true, Bool.and_eq_true, beq_iff_eq,
    Bool.not_eq_true', List.all_eq_true, List.elem_iff, and_assoc]

/-- Propositional reading of `tableOrViewWithColumns`. -/
theorem tableOrViewWithColumns_iff (s : List SchemaObject) (nm : String) (cols : List String) :
    tableOrViewWithColumns s nm cols = true ↔
      ∃ t ∈ s, t.name = nm ∧ ∀ c ∈ cols, c ∈ t.columns := by
  simp [tableOrViewWithColumns, List.any_eq_true, Bool.and_eq_true, beq_iff_eq,
    List.all_eq_true, List.elem_iff, and_assoc]

/-- C4: the zoom predicate's precedence — a non-empty `zooms` set wins
over any `min_zoom`/`max_zoom`, then both bounds give BETWEEN, then each
single bound gives the one-sided comparison, else no filter. -/
theorem zoom_filter_precedence (o : TileCopierOptions) (z : Int) :
    (o.zooms ≠ [] →
      ((run_query_with_options o).eval (some z) = true ↔ ∃ w ∈ o.zooms, (w : Int) = z)) ∧
    (o.zooms = [] → ∀ a b, o.min_zoom = some a → o.max_zoom = some b →
      ((run_query_with_options o).eval (some z) = true ↔ ((a : Int) ≤ z ∧ z ≤ (b : Int)))) ∧
    (o.zooms = [] → ∀ a, o.min_zoom = some a → o.max_zoom = none →
      ((run_query_with_options o).eval (some z) = true ↔ (a : Int) ≤ z)) ∧
    (o.zooms = [] → ∀ b, o.min_zoom = none → o.max_zoom = some b →
      ((run_query_with_options o).eval (some z) = true ↔ z ≤ (b : Int))) ∧
    (o.zooms = [] → o.min_zoom = none → o.max_zoom = none →
      ∀ zl : Option Int, (run_query_with_options o).eval zl = true) := by
  refine ⟨?_, ?_, ?_, ?_, ?_⟩
  · intro hne
    have hbe : o.zooms.isEmpty = false := by
      cases hzz : o.zooms with
      | nil => exact absurd hzz hne
      | cons a l => rfl
    simp [run_query_with_options, hbe, ZoomClause.eval, List.any_eq_true, beq_iff_eq]
  · intro he a b ha hb
    simp [run_query_with_options, he, ha, hb, ZoomClause.eval, decide_eq_true_eq]
  · intro he a ha hb
    simp [run_query_with_options, he, ha, hb, ZoomClause.eval, decide_eq_true_eq]
  · intro he b ha hb
    simp [run_query_with_options, he, ha, hb, ZoomClause.eval, decide_eq_true_eq]
  · intro he ha hb zl
    simp [run_query_with_options, he, ha, hb, ZoomClause.eval]

/-- Witness for C4 at options `min_zoom=2, max_zoom=4, zooms={1,6}`: the
explicit set wins, so zoom 6 passes even though it is above `max_zoom`. -/
theorem zoom_filter_precedence_witness :
    c4Opts.zooms ≠ [] ∧
    ((run_query_with_options c4Opts).eval (some 6) = true ↔ ∃ w ∈ c4Opts.zooms, (w : Int) = 6) :=
  ⟨by decide, (zoom_filter_precedence c4Opts 6).1 (by decide)⟩

/-- C1: evaluation of `TileCopier::run` on a deduplicated source with
filter `min_zoom=2, max_zoom=4`: the destination `map` table is copied
UNFILTERED (it keeps the zoom-0 row, violating `2 ≤ zoom_level ≤ 4`),
and the zoom predicate is applied to the `images` join instead — the
code contradicts the claim, which follows the spec. -/
theorem copy_deduplicated_map_not_filtered :
    TileCopier.run c1Opts c1Src "src.mbtiles" "dst.mbtiles" [] =
      Except.ok { schemaSql := c1Src.schemaSql, metadata := c1Src.metadata,
                  tiles := [], map := c1Src.map,
                  images := [⟨some "t3", some [2]⟩] } ∧
    (c1Src.map.all fun m =>
      m.zoom_level.any fun zl => decide ((2 : Int) ≤ zl) && decide (zl ≤ (4 : Int))) = false :=
  ⟨rfl, rfl⟩

/-- C8: with a source of a recognised shape, `TileCopier::run` fails with
`NonEmptyTargetFile` exactly when the destination already has a schema
object, that failure performs no destination write, and an empty (or
absent, hence freshly created empty) destination is accepted. -/
theorem run_requires_empty_target (o : TileCopierOptions) (src : MbtDatabase)
    (sp dp : String) (dstSchema : List String) (t : MbtType)
    (hdet : detect_type sp src.schema = .ok t) :
    (dstSchema ≠ [] →
      TileCopier.run o src sp dp dstSchema = .error (.NonEmptyTargetFile dp) ∧
      runWrites src sp dstSchema = []) ∧
    (dstSchema = [] → isOkE (TileCopier.run o src sp dp dstSchema) = true) := by
  constructor
  · intro hne
    constructor
    · simp [TileCopier.run, hdet, hne]
    · simp [runWrites, hdet, hne]
  · intro he
    cases t <;> simp [TileCopier.run, hdet, he, isOkE]

/-- Witness for C8: a non-empty destination is rejected with no writes,
an empty one is accepted. -/
theorem run_requires_empty_target_witness :
    detect_type "s" c8Src.schema = .ok .TileTables ∧
    (TileCopier.run TileCopierOptions.new c8Src "s" "d" ["CREATE TABLE x"] =
        .error (.NonEmptyTargetFile "d") ∧
      runWrites c8Src "s" ["CREATE TABLE x"] = []) ∧
    isOkE (TileCopier.run TileCopierOptions.new c8Src "s" "d" []) = true := by
  refine ⟨rfl, ?_, ?_⟩
  · exact (run_requires_empty_target TileCopierOptions.new c8Src "s" "d"
      ["CREATE TABLE x"] .TileTables rfl).1 (by simp)
  · exact (run_requires_empty_target TileCopierOptions.new c8Src "s" "d"
      [] .TileTables rfl).2 rfl

/-- C3 counterexample: a deduplicated archive that also exposes the
customary `tiles` view satisfies the claim's DirectTiles condition (a
`tiles` table or view with those columns exists) yet `detect_type`
classifies it DeDuplicated, so "DirectTiles iff tiles exists" fails as
stated. -/
theorem detect_type_tiles_view_is_dedup :
    is_tile_tables_type c3Schema = true ∧
    detect_type "a.mbtiles" c3Schema = .ok .DeDuplicated :=
  ⟨rfl, rfl⟩

/-- C3 (amended): DeDuplicated iff the `map` and `images` tables with the
required columns exist; DirectTiles iff that fails and a `tiles` table or
view with the required columns exists; otherwise the result is the error
`InvalidDataFormat` carrying the file path, and that is the only error. -/
theorem detect_type_classification (p : String) (s : List SchemaObject) :
    (detect_type p s = .ok .DeDuplicated ↔
      ((∃ t ∈ s, t.name = "map" ∧ t.isView = false ∧
          ∀ c ∈ ["zoom_level", "tile_column", "tile_row", "tile_id"], c ∈ t.columns) ∧
       (∃ t ∈ s, t.name = "images" ∧ t.isView = false ∧
          ∀ c ∈ ["tile_id", "tile_data"], c ∈ t.columns))) ∧
    (detect_type p s = .ok .TileTables ↔
      (is_deduplicated_type s = false ∧
       ∃ t ∈ s, t.name = "tiles" ∧
          ∀ c ∈ ["zoom_level", "tile_column", "tile_row", "tile_data"], c ∈ t.columns)) ∧
    (∀ e, detect_type p s = .error e ↔
      (e = .InvalidDataFormat p ∧ is_deduplicated_type s = false ∧
        is_tile_tables_type s = false)) := by
  have hdedup : is_deduplicated_type s = true ↔
      ((∃ t ∈ s, t.name = "map" ∧ t.isView = false ∧
          ∀ c ∈ ["zoom_level", "tile_column", "tile_row", "tile_id"], c ∈ t.columns) ∧
       (∃ t ∈ s, t.name = "images" ∧ t.isView = false ∧
          ∀ c ∈ ["tile_id", "tile_data"], c ∈ t.columns)) := by
    rw [is_deduplicated_type, Bool.and_eq_true, tableWithColumns_iff, tableWithColumns_iff]
  have htt : is_tile_tables_type s = true ↔
      (∃ t ∈ s, t.name = "tiles" ∧
        ∀ c ∈ ["zoom_level", "tile_column", "tile_row", "tile_data"], c ∈ t.columns) := by
    rw [is_tile_tables_type, tableOrViewWithColumns_iff]
  unfold detect_type
  by_cases hd : is_deduplicated_type s = true
  · rw [if_pos hd]
    refine ⟨iff_of_true rfl (hdedup.mp hd), ?_, ?_⟩
    · simp [hd]
    · intro e
      simp [hd]
  · have hd' : is_deduplicated_type s = false := by simpa using hd
    rw [if_neg hd]
    by_cases ht : is_tile_tables_type s = true
    · rw [if_pos ht]
      refine ⟨?_, iff_of_true rfl ⟨hd', htt.mp ht⟩, ?_⟩
      · rw [← hdedup]
        simp [hd']
      · intro e
        simp [ht]
    · have ht' : is_tile_tables_type s = false := by simpa using ht
      rw [if_neg ht]
      refine ⟨?_, ?_, ?_⟩
      · rw [← hdedup]
        simp [hd']
      · rw [← htt] at *
        simp [ht']
      · intro e
        simp [hd', ht', eq_comm]

/-- Witness for C3 at a deduplicated schema without a `tiles` view. -/
theorem detect_type_classification_witness :
    detect_type "w.mbtiles" c3DedupOnly = .ok .DeDuplicated :=
  (detect_type_classification "w.mbtiles" c3DedupOnly).1.mpr (by decide)

/-- Looking up the key just inserted returns the inserted value. -/
theorem alistGet_insert {α : Type} (l : List (String × α)) (k : String) (v : α) :
    alistGet (alistInsert l k v) k = some v := by
  induction l with
  | nil => simp [alistInsert, alistGet]
  | cons p l ih =>
    by_cases h : p.1 = k
    · simp [alistInsert, alistGet, h]
    · simp [alistInsert, alistGet, h, ih]

/-- The post-loop extraction touches only `vector_layers` and the json
sidecar; every other component of the parse state is preserved, and the
sidecar becomes a function of its own pre-extraction value. -/
theorem postJson_fields {B C VL : Type} (P : MetaParsers B C VL) (s : ParsedMeta B C VL) :
    (postJson P s).tj.name = s.tj.name ∧
    (postJson P s).tj.version = s.tj.version ∧
    (postJson P s).tj.bounds = s.tj.bounds ∧
    (postJson P s).tj.center = s.tj.center ∧
    (postJson P s).tj.minzoom = s.tj.minzoom ∧
    (postJson P s).tj.maxzoom = s.tj.maxzoom ∧
    (postJson P s).tj.description = s.tj.description ∧
    (postJson P s).tj.attribution = s.tj.attribution ∧
    (postJson P s).layer_type = s.layer_type ∧
    (postJson P s).tj.legend = s.tj.legend ∧
    (postJson P s).tj.template = s.tj.template ∧
    (postJson P s).tj.other = s.tj.other ∧
    (postJson P s).json = jsonPost s.json := by
  obtain ⟨tj, lt, j⟩ := s
  cases j with
  | none => simp [postJson, jsonPost]
  | some jv =>
    cases jv with
    | str a => simp [postJson, jsonPost]
    | lit a => simp [postJson, jsonPost]
    | obj fields =>
      cases hg : alistGet fields "vector_layers" with
      | none => simp [postJson, jsonPost, hg]
      | some value =>
        cases hv : P.vecLayers value with
        | none => simp [postJson, jsonPost, hg, hv]
        | some vl => simp [postJson, jsonPost, hg, hv]

theorem postJson_name {B C VL : Type} (P : MetaParsers B C VL) (s : ParsedMeta B C VL) :
    (postJson P s).tj.name = s.tj.name := (postJson_fields P s).1

theorem postJson_version {B C VL : Type} (P : MetaParsers B C VL) (s : ParsedMeta B C VL) :
    (postJson P s).tj.version = s.tj.version := (postJson_fields P s).2.1

theorem postJson_bounds {B C VL : Type} (P : MetaParsers B C VL) (s : ParsedMeta B C VL) :
    (postJson P s).tj.bounds = s.tj.bounds := (postJson_fields P s).2.2.1

theorem postJson_center {B C VL : Type} (P : MetaParsers B C VL) (s : ParsedMeta B C VL) :
    (postJson P s).tj.center = s.tj.center := (postJson_fields P s).2.2.2.1

theorem postJson_minzoom {B C VL : Type} (P : MetaParsers B C VL) (s : ParsedMeta B C VL) :
    (postJson P s).tj.minzoom = s.tj.minzoom := (postJson_fields P s).2.2.2.2.1

theorem postJson_maxzoom {B C VL : Type} (P : MetaParsers B C VL) (s : ParsedMeta B C VL) :
    (postJson P s).tj.maxzoom = s.tj.maxzoom := (postJson_fields P s).2.2.2.2.2.1

theorem postJson_description {B C VL : Type} (P : MetaParsers B C VL) (s : ParsedMeta B C VL) :
    (postJson P s).tj.description = s.tj.description := (postJson_fields P s).2.2.2.2.2.2.1

theorem postJson_attribution {B C VL : Type} (P : MetaParsers B C VL) (s : ParsedMeta B C VL) :
    (postJson P s).tj.attribution = s.tj.attribution := (postJson_fields P s).2.2.2.2.2.2.2.1

theorem postJson_layer_type {B C VL : Type} (P : MetaParsers B C VL) (s : ParsedMeta B C VL) :
    (postJson P s).layer_type = s.layer_type := (postJson_fields P s).2.2.2.2.2.2.2.2.1

theorem postJson_legend {B C VL : Type} (P : MetaParsers B C VL) (s : ParsedMeta B C VL) :
    (postJson P s).tj.legend = s.tj.legend := (postJson_fields P s).2.2.2.2.2.2.2.2.2.1

theorem postJson_template {B C VL : Type} (P : MetaParsers B C VL) (s : ParsedMeta B C VL) :
    (postJson P s).tj.template = s.tj.template := (postJson_fields P s).2.2.2.2.2.2.2.2.2.2.1

theorem postJson_other {B C VL : Type} (P : MetaParsers B C VL) (s : ParsedMeta B C VL) :
    (postJson P s).tj.other = s.tj.other := (postJson_fields P s).2.2.2.2.2.2.2.2.2.2.2.1

theorem postJson_json {B C VL : Type} (P : MetaParsers B C VL) (s : ParsedMeta B C VL) :
    (postJson P s).json = jsonPost s.json := (postJson_fields P s).2.2.2.2.2.2.2.2.2.2.2.2

/-- After assigning row `(n, v)`, the component named `n` holds a value
determined by `(n, v)` alone, whatever the earlier state was. -/
theorem readName_metaStep {B C VL : Type} (P : MetaParsers B C VL)
    (s : ParsedMeta B C VL) (n v : String) :
    readName (postJson P (metaStep P s n v)) n = lastVal P n v := by
  by_cases h1 : n = "name"
  · subst h1
    simp [readName, lastVal, metaStep, postJson_name]
  by_cases h2 : n = "version"
  · subst h2
    simp [readName, lastVal, metaStep, postJson_version]
  by_cases h3 : n = "bounds"
  · subst h3
    simp [readName, lastVal, metaStep, postJson_bounds]
  by_cases h4 : n = "center"
  · subst h4
    simp [readName, lastVal, metaStep, postJson_center]
  by_cases h5 : n = "minzoom"
  · subst h5
    simp [readName, lastVal, metaStep, postJson_minzoom]
  by_cases h6 : n = "maxzoom"
  · subst h6
    simp [readName, lastVal, metaStep, postJson_maxzoom]
  by_cases h7 : n = "description"
  · subst h7
    simp [readName, lastVal, metaStep, postJson_description]
  by_cases h8 : n = "attribution"
  · subst h8
    simp [readName, lastVal, metaStep, postJson_attribution]
  by_cases h9 : n = "type"
  · subst h9
    simp [readName, lastVal, metaStep, postJson_layer_type]
  by_cases h10 : n = "legend"
  · subst h10
    simp [readName, lastVal, metaStep, postJson_legend]
  by_cases h11 : n = "template"
  · subst h11
    simp [readName, lastVal, metaStep, postJson_template]
  by_cases h12 : n = "json"
  · subst h12
    simp [readName, lastVal, metaStep, postJson_json]
  simp [readName, lastVal, metaStep, postJson_other, h1, h2, h3, h4, h5, h6,
    h7, h8, h9, h10, h11, h12, alistGet_insert]

/-- C7: metadata rows with an empty value are ignored entirely (they set
no field and are not recorded in `other`), and among rows sharing a name
the last row read determines the corresponding component of the parse
result. -/
theorem parse_metadata_empty_ignored_last_wins {B C VL : Type} (P : MetaParsers B C VL) :
    (∀ (l₁ l₂ : List (Option String × Option String)) (n : Option String),
      parse_metadata P (l₁ ++ (n, some "") :: l₂) = parse_metadata P (l₁ ++ l₂)) ∧
    (∀ (l : List (Option String × Option String)) (n v : String), v ≠ "" →
      readName (parse_metadata P (l ++ [(some n, some v)])) n = lastVal P n v) := by
  constructor
  · intro l₁ l₂ n
    unfold parse_metadata
    have hfe : ((l₁ ++ (n, some "") :: l₂).filter fun r => !(r.2 == some "")) =
        ((l₁ ++ l₂).filter fun r => !(r.2 == some "")) := by
      simp [List.filter_append, List.filter_cons]
    rw [hfe]
  · intro l n v hv
    unfold parse_metadata
    have hfe : ((l ++ [(some n, some v)]).filter fun r => !(r.2 == some "")) =
        (l.filter fun r => !(r.2 == some "")) ++ [(some n, some v)] := by
      simp [List.filter_append, List.filter_cons, hv]
    rw [hfe, List.foldl_append]
    exact readName_metaStep P _ n v

/-- Witness for C7: a duplicate `name` row where the later value wins,
and an empty-valued row that is dropped. -/
theorem parse_metadata_empty_ignored_last_wins_witness :
    ("v2" ≠ "" ∧
      readName (parse_metadata defaultParsers
        [(some "name", some "v1"), (some "name", some "v2")]) "name" =
        lastVal defaultParsers "name" "v2") ∧
    parse_metadata defaultParsers [(some "note", some "")] =
      parse_metadata defaultParsers [] :=
  ⟨⟨by decide,
    (parse_metadata_empty_ignored_last_wins defaultParsers).2
      [(some "name", some "v1")] "name" "v2" (by decide)⟩,
   (parse_metadata_empty_ignored_last_wins defaultParsers).1 [] [] (some "note")⟩

/-- C9: a successful `finalize` sets `run_autodiscovery` true iff neither
`tables` nor `functions` was declared and carries every other field over
unchanged; `finalize` fails iff the connection string is absent, and the
failure is `NoConnectionString`. -/
theorem finalize_autodiscovery_connection (c : PgConfig) :
    (∀ c', c.finalize = .ok c' →
      ((c'.run_autodiscovery = true ↔ (c.tables = none ∧ c.functions = none)) ∧
       c'.connection_string = c.connection_string ∧
       c'.ca_root_file = c.ca_root_file ∧
       c'.danger_accept_invalid_certs = c.danger_accept_invalid_certs ∧
       c'.default_srid = c.default_srid ∧
       c'.pool_size = c.pool_size ∧
       c'.auto_tables = c.auto_tables ∧
       c'.auto_functions = c.auto_functions ∧
       c'.tables = c.tables ∧
       c'.functions = c.functions)) ∧
    (c.finalize = .error .NoConnectionString ↔ c.connection_string = none) := by
  cases hcs : c.connection_string with
  | none =>
    constructor
    · intro c' hc'
      simp [PgConfig.finalize, hcs] at hc'
    · simp [PgConfig.finalize, hcs]
  | some cs =>
    constructor
    · intro c' hc'
      simp only [PgConfig.finalize, hcs] at hc'
      cases hc'
      refine ⟨?_, ?_⟩
      · simp [Bool.and_eq_true, Option.isNone_iff_eq_none]
      · simp [hcs]
    · simp [PgConfig.finalize, hcs]

/-- Witness for C9: finalizing a config with a connection string and no
declared sources turns auto-discovery on. -/
theorem finalize_autodiscovery_connection_witness :
    ({ c9Config with run_autodiscovery := true } : PgConfig).run_autodiscovery = true ↔
      (c9Config.tables = none ∧ c9Config.functions = none) :=
  ((finalize_autodiscovery_connection c9Config).1
    { c9Config with run_autodiscovery := true } rfl).1

/-- A table with no row at a nonnegative zoom yields nothing at any
scanned zoom, so the scan keeps `none`. -/
theorem scanZooms_none (tiles : List TileRow) (tested : Int)
    (H : ∀ r ∈ tiles, ∀ k : Int, r.zoom_level = some k → k < 0) :
    ∀ zs, scanZooms tiles tested none zs = .ok none := by
  intro zs
  induction zs with
  | nil => rfl
  | cons z zs ih =>
    unfold scanZooms
    by_cases hz : (z : Int) = tested
    · rw [if_pos hz]
      exact ih
    · rw [if_neg hz]
      have hfind : (tiles.find? fun r => r.zoom_level == some (z : Int)) = none := by
        rw [List.find?_eq_none]
        intro r hr
        simp only [beq_iff_eq]
        intro heq
        have hneg := H r hr (z : Int) heq
        omega
      rw [hfind]
      exact ih

/-- C2 counterexample: an archive whose `tiles` table is empty (so
detection finds no tile at any zoom) but whose metadata declares the
parseable format `png` makes `get_metadata` SUCCEED with `(png,
identity)` instead of failing with `NoTilesFound`. -/
theorem no_tiles_with_metadata_format_ok :
    isOkE (get_metadata defaultParsers "f" c2Rows ([] : List TileRow)) = true ∧
    metaTileInfo (get_metadata defaultParsers "f" c2Rows ([] : List TileRow)) =
      some ⟨.Png, .Identity⟩ :=
  ⟨rfl, rfl⟩

/-- C2 (amended): if content-type detection finds no tile at any zoom
level (no row has a nonnegative `zoom_level`, which covers the initial
sample and every zoom in `[minzoom..=maxzoom]`), and the metadata
`format` entry is absent or not parseable, then `get_metadata` fails with
`NoTilesFound`. -/
theorem get_metadata_no_tiles_no_format_fails {B C VL : Type}
    (P : MetaParsers B C VL) (filename : String)
    (rows : List (Option String × Option String)) (tiles : List TileRow)
    (hnone : ∀ r ∈ tiles, ∀ k : Int, r.zoom_level = some k → k < 0)
    (hfmt : ∀ f, alistGet (parse_metadata P rows).tj.other "format" = some f →
      Format.parse f = none) :
    get_metadata P filename rows tiles = .error .NoTilesFound := by
  have hsample : (tiles.find? fun r =>
      match r.zoom_level with
      | some z => decide (0 ≤ z)
      | none => false) = none := by
    rw [List.find?_eq_none]
    intro r hr
    cases hzl : r.zoom_level with
    | none => simp
    | some k =>
      have hk := hnone r hr k hzl
      simp only [decide_eq_true_eq]
      omega
  have hdf : detect_format (parse_metadata P rows).tj tiles = .error .NoTilesFound := by
    unfold detect_format
    simp only [hsample]
    unfold detectFormatCont
    simp only [scanZooms_none tiles (-1) hnone]
    cases hfo : alistGet (parse_metadata P rows).tj.other "format" with
    | none => rfl
    | some f => simp only [hfmt f hfo]
  unfold get_metadata
  simp only [hdf]

/-- Witness for C2: an empty archive with an unparseable metadata format
fails with `NoTilesFound`. -/
theorem get_metadata_no_tiles_no_format_fails_witness :
    get_metadata defaultParsers "w" c2RowsBad ([] : List TileRow) =
      .error .NoTilesFound :=
  get_metadata_no_tiles_no_format_fails defaultParsers "w" c2RowsBad []
    (fun r hr => absurd hr (List.not_mem_nil r))
    (by
      intro f hf
      have hx : alistGet (parse_metadata defaultParsers c2RowsBad).tj.other "format" =
          some "bogus" := rfl
      rw [hx] at hf
      cases hf
      rfl)

end Martin
